import Mathlib

/-!
Shallow embedding of the mealieah repository core (ingredient-to-product
mapping, cart aggregation, retailer auth/token lifecycle), translated from
`src/app/api/routes.py`, `src/app/clients/ah.py` and `src/app/models.py`,
together with theorems settling the specification claims.

Days are modelled as integers with Monday-based weekdays (`day % 7 = 0` is a
Monday), matching Python `date.weekday()` where Monday = 0.  Machine state
that Python holds in object attributes is passed explicitly; the answers of
the external HTTP endpoints are supplied as explicit "world" values, and the
HTTP traffic an operation generates is returned as an explicit event trace.
-/

namespace Mealieah

/-! ### Week-range computations (`routes.py` `mealplan_page` and `fill_cart`) -/

/-- Week range of `mealplan_page` (routes.py lines 313-320): the upcoming
Monday (today when today is a Monday) through that Monday plus four days. -/
def mealplanWeekRange (today : Int) : Int × Int :=
  let daysUntilMonday := (7 - today % 7) % 7
  let monday :=
    if daysUntilMonday = 0 ∧ today % 7 = 0 then today
    else today + daysUntilMonday
  (monday, monday + 4)

/-- Week range of `fill_cart` (routes.py lines 411-414). -/
def fillCartWeekRange (today : Int) : Int × Int :=
  let daysUntilMonday := (7 - today % 7) % 7
  let start := if today % 7 = 0 then today else today + daysUntilMonday
  (start, start + 4)

/-- C9: for every value of today, the week range of the mealplan page equals
the week range of the cart-fill operation; both start at the upcoming Monday
(today itself when today is a Monday) and end four days later (Friday). -/
theorem mealplan_fillCart_week_range_agree (today : Int) :
    mealplanWeekRange today = fillCartWeekRange today ∧
    (mealplanWeekRange today).1 % 7 = 0 ∧
    today ≤ (mealplanWeekRange today).1 ∧
    (mealplanWeekRange today).1 < today + 7 ∧
    (mealplanWeekRange today).2 = (mealplanWeekRange today).1 + 4 := by
  have h0 : (0 : Int) ≤ today % 7 := Int.emod_nonneg today (by decide)
  have h7 : today % 7 < 7 := Int.emod_lt_of_pos today (by decide)
  by_cases hb : today % 7 = 0
  · have ha : ((7 : Int) - today % 7) % 7 = 0 ∧ today % 7 = 0 := by
      rw [hb]; exact ⟨by decide, rfl⟩
    simp only [mealplanWeekRange, fillCartWeekRange, if_pos ha, if_pos hb]
    refine ⟨?_, ?_, ?_, ?_, ?_⟩ <;> first | trivial | omega
  · have ha : ¬(((7 : Int) - today % 7) % 7 = 0 ∧ today % 7 = 0) :=
      fun hc => hb hc.2
    simp only [mealplanWeekRange, fillCartWeekRange, if_neg ha, if_neg hb]
    refine ⟨?_, ?_, ?_, ?_, ?_⟩ <;> first | trivial | omega

/-! ### Data model (`models.py`) -/

/-- `IngredientMapping.status` (models.py line 18): "mapped" | "skipped" | "unmapped". -/
inductive MapStatus
  | unmapped
  | mapped
  | skipped
deriving DecidableEq, Repr

/-- One row of `mealieah_ingredient_mappings` (models.py lines 9-34), restricted
to the payload fields (the surrogate `id` and timestamps carry no claim
content).  Per the source comment, the AH product snapshot columns are
nullable and meant to be null when status is "skipped" or "unmapped". -/
structure IngredientMapping where
  recipe_slug : String
  recipe_name : String
  ingredient_reference_id : String
  ingredient_display : String
  status : MapStatus
  ah_product_id : Option Int
  ah_product_name : Option String
  ah_product_image_url : Option String
  ah_product_unit_size : Option String
  ah_product_price : Option String
  ah_quantity : Int
deriving DecidableEq, Repr

/-! ### Mapping store operations (`routes.py` `save_mapping`, `delete_mapping`) -/

/-- The `WHERE recipe_slug == .. AND ingredient_reference_id == ..` filter used
by both `save_mapping` and `delete_mapping`. -/
def keyMatches (slug ref : String) (m : IngredientMapping) : Bool :=
  m.recipe_slug == slug && m.ingredient_reference_id == ref

/-- Update the first element satisfying `p` (SQLAlchemy mutates the single row
returned by `scalar_one_or_none`). -/
def updateFirst (p : α → Bool) (f : α → α) : List α → List α
  | [] => []
  | x :: xs => if p x then f x :: xs else x :: updateFirst p f xs

/-- `save_mapping` (routes.py lines 235-286): if a row with the same
(recipe_slug, ingredient_reference_id) exists, overwrite all of its payload
fields in place; otherwise insert a new row.  The submitted form is itself a
full `IngredientMapping` payload. -/
def saveMapping (payload : IngredientMapping) (store : List IngredientMapping) :
    List IngredientMapping :=
  if store.any (keyMatches payload.recipe_slug payload.ingredient_reference_id) then
    updateFirst (keyMatches payload.recipe_slug payload.ingredient_reference_id)
      (fun _ => payload) store
  else
    store ++ [payload]

/-- `delete_mapping` (routes.py lines 289-305): delete the row with the key
when present, succeed either way. -/
def deleteMapping (slug ref : String) (store : List IngredientMapping) :
    List IngredientMapping :=
  if store.any (keyMatches slug ref) then store.eraseP (keyMatches slug ref)
  else store

/-- One user action against the mapping store. -/
inductive StoreOp
  | save (payload : IngredientMapping)
  | del (slug ref : String)

/-- Apply one mapping-store operation. -/
def applyOp (store : List IngredientMapping) : StoreOp → List IngredientMapping
  | .save payload => saveMapping payload store
  | .del slug ref => deleteMapping slug ref store

/-- Run a sequence of save/delete operations from the empty store. -/
def runOps (ops : List StoreOp) : List IngredientMapping :=
  ops.foldl applyOp []

/-- The uniqueness invariant: at most one row per
(recipe_slug, ingredient_reference_id) key. -/
def uniqueKeys (store : List IngredientMapping) : Prop :=
  ∀ slug ref, (store.countP (fun m => keyMatches slug ref m)) ≤ 1

theorem countP_updateFirst (p q : α → Bool) (f : α → α)
    (hf : ∀ x, p x → (q (f x) = q x)) :
    ∀ l : List α, (updateFirst p f l).countP q = l.countP q := by
  intro l
  induction l with
  | nil => rfl
  | cons x xs ih =>
    by_cases hx : p x
    · simp only [updateFirst, if_pos hx, List.countP_cons, hf x hx, ih]
    · simp only [updateFirst, if_neg hx, List.countP_cons, ih]

theorem countP_eraseP_le (q p : α → Bool) :
    ∀ l : List α, (l.eraseP p).countP q ≤ l.countP q := by
  intro l
  induction l with
  | nil => simp [List.eraseP]
  | cons x xs ih =>
    by_cases hx : p x
    · simp only [List.eraseP_cons, hx, cond_true, List.countP_cons]
      omega
    · simp only [List.eraseP_cons, hx, cond_false, List.countP_cons]
      omega

theorem uniqueKeys_saveMapping (payload : IngredientMapping)
    (store : List IngredientMapping) (h : uniqueKeys store) :
    uniqueKeys (saveMapping payload store) := by
  intro slug ref
  unfold saveMapping
  by_cases hex :
      store.any (keyMatches payload.recipe_slug payload.ingredient_reference_id)
  · rw [if_pos hex]
    rw [countP_updateFirst]
    · exact h slug ref
    · intro x hx
      have hkey : x.recipe_slug = payload.recipe_slug ∧
          x.ingredient_reference_id = payload.ingredient_reference_id := by
        simp only [keyMatches, Bool.and_eq_true, beq_iff_eq] at hx
        exact hx
      simp only [keyMatches]
      rw [hkey.1, hkey.2]
  · rw [if_neg hex]
    rw [List.countP_append]
    by_cases hp : keyMatches slug ref payload
    · have hz : store.countP (fun m => keyMatches slug ref m) = 0 := by
        rw [List.countP_eq_zero]
        intro m hm hkm
        apply hex
        rw [List.any_eq_true]
        refine ⟨m, hm, ?_⟩
        simp only [keyMatches, Bool.and_eq_true, beq_iff_eq] at hkm hp ⊢
        exact ⟨hkm.1.trans hp.1.symm, hkm.2.trans hp.2.symm⟩
      simp [hz, List.countP_cons, hp]
    · have : List.countP (fun m => keyMatches slug ref m) [payload] = 0 := by
        simp [List.countP_cons, hp]
      rw [this]
      simpa using h slug ref

theorem uniqueKeys_deleteMapping (slug ref : String)
    (store : List IngredientMapping) (h : uniqueKeys store) :
    uniqueKeys (deleteMapping slug ref store) := by
  intro s r
  unfold deleteMapping
  by_cases hex : store.any (keyMatches slug ref)
  · rw [if_pos hex]
    exact le_trans (countP_eraseP_le _ _ store) (h s r)
  · rw [if_neg hex]
    exact h s r

theorem uniqueKeys_foldl (ops : List StoreOp) (store : List IngredientMapping)
    (h : uniqueKeys store) : uniqueKeys (ops.foldl applyOp store) := by
  induction ops generalizing store with
  | nil => exact h
  | cons op rest ih =>
    apply ih
    cases op with
    | save p => exact uniqueKeys_saveMapping p store h
    | del s r => exact uniqueKeys_deleteMapping s r store h

theorem uniqueKeys_runOps (ops : List StoreOp) : uniqueKeys (runOps ops) := by
  apply uniqueKeys_foldl
  intro slug ref
  simp

theorem length_updateFirst (p : α → Bool) (f : α → α) :
    ∀ l : List α, (updateFirst p f l).length = l.length := by
  intro l
  induction l with
  | nil => rfl
  | cons x xs ih =>
    by_cases hx : p x
    · simp [updateFirst, if_pos hx]
    · simp [updateFirst, if_neg hx, ih]

theorem find?_updateFirst_self (p : α → Bool) (c : α) (hc : p c = true) :
    ∀ l : List α, l.any p = true →
      (updateFirst p (fun _ => c) l).find? p = some c := by
  intro l
  induction l with
  | nil => intro h; simp at h
  | cons x xs ih =>
    intro hany
    by_cases hx : p x
    · simp [updateFirst, if_pos hx, List.find?_cons, hc]
    · have htail : xs.any p = true := by
        simp only [List.any_cons, hx, Bool.false_or] at hany
        exact hany
      simp [updateFirst, if_neg hx, List.find?_cons, hx, ih htail]

theorem mem_updateFirst_of_not (p : α → Bool) (f : α → α) (m : α)
    (hm : p m = false) :
    ∀ l : List α, m ∈ l → m ∈ updateFirst p f l := by
  intro l
  induction l with
  | nil => intro h; exact absurd h (List.not_mem_nil m)
  | cons x xs ih =>
    intro hmem
    by_cases hx : p x
    · rcases List.mem_cons.mp hmem with hhd | htl
      · rw [hhd] at hm
        rw [hm] at hx
        exact absurd hx (by simp)
      · simp only [updateFirst, if_pos hx]
        exact List.mem_cons_of_mem _ htl
    · rcases List.mem_cons.mp hmem with hhd | htl
      · simp only [updateFirst, if_neg hx, hhd]
        exact List.mem_cons_self x _
      · simp only [updateFirst, if_neg hx]
        exact List.mem_cons_of_mem _ (ih htl)

/-- C7: across every sequence of save and delete operations the store holds at
most one row per (recipe_slug, ingredient_reference_id) key, and when a row
for the key already exists, save overwrites it in place: the store size is
unchanged, the row found under the key afterwards is exactly the submitted
payload, and rows under other keys are untouched. -/
theorem mapping_key_unique_and_save_overwrites :
    (∀ ops : List StoreOp, ∀ slug ref,
      (runOps ops).countP (fun m => keyMatches slug ref m) ≤ 1) ∧
    (∀ (payload : IngredientMapping) (store : List IngredientMapping),
      store.any (keyMatches payload.recipe_slug payload.ingredient_reference_id)
        = true →
      (saveMapping payload store).length = store.length ∧
      (saveMapping payload store).find?
        (keyMatches payload.recipe_slug payload.ingredient_reference_id)
        = some payload ∧
      (∀ m ∈ store,
        keyMatches payload.recipe_slug payload.ingredient_reference_id m
          = false →
        m ∈ saveMapping payload store)) := by
  constructor
  · intro ops slug ref
    exact uniqueKeys_runOps ops slug ref
  · intro payload store hex
    have hself : keyMatches payload.recipe_slug payload.ingredient_reference_id
        payload = true := by
      simp [keyMatches]
    refine ⟨?_, ?_, ?_⟩
    · rw [saveMapping, if_pos hex]
      exact length_updateFirst _ _ store
    · rw [saveMapping, if_pos hex]
      exact find?_updateFirst_self _ _ hself store hex
    · intro m hm hkm
      rw [saveMapping, if_pos hex]
      exact mem_updateFirst_of_not _ _ m hkm store hm

/-- Example payloads for the mapping-store claims. -/
def examplePayloadOld : IngredientMapping :=
  { recipe_slug := "r1", recipe_name := "Soep",
    ingredient_reference_id := "i1", ingredient_display := "1 ui",
    status := .unmapped, ah_product_id := none, ah_product_name := none,
    ah_product_image_url := none, ah_product_unit_size := none,
    ah_product_price := none, ah_quantity := 1 }

def examplePayloadNew : IngredientMapping :=
  { recipe_slug := "r1", recipe_name := "Soep",
    ingredient_reference_id := "i1", ingredient_display := "1 ui",
    status := .mapped, ah_product_id := some 100,
    ah_product_name := some "Uien", ah_product_image_url := none,
    ah_product_unit_size := some "500 g", ah_product_price := some "1.09",
    ah_quantity := 2 }

/-- C7 witness: saving twice under the same key keeps a single row, keeps the
store size at one, stores exactly the second payload, and the uniqueness bound
holds for a concrete operation sequence. -/
theorem mapping_key_unique_and_save_overwrites_witness :
    (runOps [.save examplePayloadOld, .save examplePayloadNew]).countP
      (fun m => keyMatches "r1" "i1" m) ≤ 1 ∧
    (saveMapping examplePayloadNew [examplePayloadOld]).length = 1 ∧
    (saveMapping examplePayloadNew [examplePayloadOld]).find?
      (keyMatches "r1" "i1") = some examplePayloadNew := by
  have h := mapping_key_unique_and_save_overwrites
  refine ⟨h.1 [.save examplePayloadOld, .save examplePayloadNew] "r1" "i1",
    ?_, ?_⟩
  · exact (h.2 examplePayloadNew [examplePayloadOld] (by decide)).1
  · exact (h.2 examplePayloadNew [examplePayloadOld] (by decide)).2.1

/-- A save request carrying a retailer product snapshot together with a
"skipped" status (the failing input for the snapshot-nullity claim). -/
def skippedWithSnapshot : IngredientMapping :=
  { recipe_slug := "r2", recipe_name := "Stoof",
    ingredient_reference_id := "i9", ingredient_display := "2 wortels",
    status := .skipped, ah_product_id := some 5,
    ah_product_name := some "Wortels", ah_product_image_url := some "u",
    ah_product_unit_size := some "1 kg", ah_product_price := some "0.99",
    ah_quantity := 1 }

/-- C8: `save_mapping` stores whatever snapshot fields the caller supplies,
even alongside a non-"mapped" status — saving `skippedWithSnapshot` into an
empty store yields a row whose status is "skipped" yet whose product snapshot
is populated, violating the documented "null when status is not mapped"
invariant. -/
theorem save_keeps_snapshot_on_skipped_status :
    saveMapping skippedWithSnapshot [] = [skippedWithSnapshot] ∧
    skippedWithSnapshot.status ≠ MapStatus.mapped ∧
    skippedWithSnapshot.ah_product_id ≠ none ∧
    skippedWithSnapshot.ah_product_name ≠ none := by
  refine ⟨?_, by decide, by decide, by decide⟩
  rfl

/-! ### Settings store and the OAuth code-exchange route
(`routes.py` `_get_setting`, `_set_setting`, `ah_code_exchange`) -/

/-- `_set_setting` (routes.py lines 26-32): upsert by key. -/
def setSetting (store : List (String × String)) (key value : String) :
    List (String × String) :=
  if store.any (fun kv => kv.1 == key) then
    updateFirst (fun kv => kv.1 == key) (fun kv => (kv.1, value)) store
  else
    store ++ [(key, value)]

/-- `_get_setting` (routes.py lines 21-23): absent key reads as "". -/
def getSetting (store : List (String × String)) (key : String) : String :=
  ((store.find? (fun kv => kv.1 == key)).map (fun kv => kv.2)).getD ""

/-- Answer of the retailer OAuth token endpoint for a submitted code. -/
inductive ExchangeOutcome
  | ok (access refresh : String)
  | httpError
deriving DecidableEq, Repr

/-- Modelled from the spec: `AHClient.exchange_code` is called by
`ah_code_exchange` (routes.py line 704) but is not defined in the repository
sources; per spec §4.1 it acquires the initial user access+refresh token pair
from the retailer's OAuth endpoint, here represented by the `oauth` oracle. -/
def exchangeCode (oauth : String → ExchangeOutcome) (code : String) :
    ExchangeOutcome :=
  oauth code

/-- Code extraction of `ah_code_exchange` (routes.py lines 691-701): take the
`code` query parameter of the callback URL; if the input is not a URL with a
`code` parameter, the whole input is the code. -/
def extractQueryCode (s : String) : Option String :=
  match s.splitOn "?" with
  | _ :: rest@(_ :: _) =>
    let query := String.intercalate "?" rest
    ((query.splitOn "&").filterMap (fun p =>
      if p.startsWith "code=" then
        let v := p.drop 5
        if v = "" then none else some v
      else none)).head?
  | _ => none

/-- Python `str.strip()`: drop leading and trailing whitespace. -/
def pyStrip (s : String) : String :=
  ⟨((s.toList.dropWhile Char.isWhitespace).reverse.dropWhile
      Char.isWhitespace).reverse⟩

/-- The code that `ah_code_exchange` submits for a raw form input. -/
def codeOf (raw : String) : String :=
  (extractQueryCode (pyStrip raw)).getD (pyStrip raw)

/-- `ah_code_exchange` (routes.py lines 681-715): empty input is rejected;
otherwise the extracted code is exchanged and on success both tokens are
persisted and success is reported. -/
def ahCodeExchange (raw : String) (oauth : String → ExchangeOutcome)
    (store : List (String × String)) : Bool × List (String × String) :=
  if pyStrip raw = "" then (false, store)
  else
    match exchangeCode oauth (codeOf raw) with
    | .ok a r =>
      (true, setSetting (setSetting store "ah_user_token" a) "ah_refresh_token" r)
    | .httpError => (false, store)

theorem find?_updateFirst_res (p : α → Bool) (f : α → α)
    (hpres : ∀ x, p (f x) = p x) :
    ∀ l : List α, (updateFirst p f l).find? p = (l.find? p).map f := by
  intro l
  induction l with
  | nil => rfl
  | cons x xs ih =>
    by_cases hx : p x
    · rw [show updateFirst p f (x :: xs) = f x :: xs by simp [updateFirst, hx]]
      rw [List.find?_cons_of_pos _ (by rw [hpres]; exact hx),
        List.find?_cons_of_pos _ hx]
      rfl
    · rw [show updateFirst p f (x :: xs) = x :: updateFirst p f xs by
        simp [updateFirst, hx]]
      rw [List.find?_cons_of_neg _ hx, List.find?_cons_of_neg _ hx, ih]

theorem find?_updateFirst_disj (q p : α → Bool) (f : α → α)
    (hdis : ∀ x, p x = true → q x = false)
    (hqf : ∀ x, p x = true → q (f x) = false) :
    ∀ l : List α, (updateFirst p f l).find? q = l.find? q := by
  intro l
  induction l with
  | nil => rfl
  | cons x xs ih =>
    by_cases hx : p x
    · rw [show updateFirst p f (x :: xs) = f x :: xs by simp [updateFirst, hx]]
      rw [List.find?_cons_of_neg _ (by simp [hqf x hx]),
        List.find?_cons_of_neg _ (by simp [hdis x hx])]
    · rw [show updateFirst p f (x :: xs) = x :: updateFirst p f xs by
        simp [updateFirst, hx]]
      by_cases hq : q x
      · rw [List.find?_cons_of_pos _ hq, List.find?_cons_of_pos _ hq]
      · rw [List.find?_cons_of_neg _ hq, List.find?_cons_of_neg _ hq, ih]

theorem getSetting_setSetting_self (store : List (String × String))
    (key value : String) :
    getSetting (setSetting store key value) key = value := by
  unfold setSetting getSetting
  by_cases hex : store.any (fun kv => kv.1 == key)
  · rw [if_pos hex, find?_updateFirst_res (fun kv => kv.1 == key)
      (fun kv => (kv.1, value)) (fun x => rfl) store]
    obtain ⟨kv, hkv, hp⟩ := List.any_eq_true.mp hex
    have hsome : (store.find? (fun kv => kv.1 == key)).isSome :=
      List.find?_isSome.mpr ⟨kv, hkv, hp⟩
    obtain ⟨kv0, hkv0⟩ := Option.isSome_iff_exists.mp hsome
    rw [hkv0]
    rfl
  · rw [if_neg hex, List.find?_append]
    have hz : store.find? (fun kv => kv.1 == key) = none :=
      List.find?_eq_none.mpr
        (fun x hx hb => hex (List.any_eq_true.mpr ⟨x, hx, hb⟩))
    rw [hz]
    simp

theorem getSetting_setSetting_other (store : List (String × String))
    (key value other : String) (hne : other ≠ key) :
    getSetting (setSetting store key value) other = getSetting store other := by
  unfold setSetting getSetting
  by_cases hex : store.any (fun kv => kv.1 == key)
  · rw [if_pos hex, find?_updateFirst_disj]
    · intro x hp
      have hx1 : x.1 = key := by simpa using hp
      simp only [hx1, beq_eq_false_iff_ne]
      exact fun h => hne h.symm
    · intro x hp
      have hx1 : x.1 = key := by simpa using hp
      simp only [hx1, beq_eq_false_iff_ne]
      exact fun h => hne h.symm
  · rw [if_neg hex, List.find?_append]
    cases hf : store.find? (fun kv => kv.1 == other) with
    | some kv => simp [hf]
    | none =>
      have hkey : ((key, value).1 == other) = false := by
        simp only [beq_eq_false_iff_ne]
        exact fun h => hne h.symm
      simp [List.find?, hkey]

/-- C5: the settings code-exchange route acquires the initial user token pair
through the (spec-modelled) OAuth exchange, and for every non-empty submitted
callback URL or code whose exchange succeeds, the returned access and refresh
tokens are persisted under `ah_user_token` and `ah_refresh_token` and success
is reported. -/
theorem ah_code_exchange_persists_tokens
    (raw : String) (oauth : String → ExchangeOutcome)
    (store : List (String × String)) (a r : String)
    (hraw : pyStrip raw ≠ "")
    (hok : oauth (codeOf raw) = .ok a r) :
    (ahCodeExchange raw oauth store).1 = true ∧
    getSetting (ahCodeExchange raw oauth store).2 "ah_user_token" = a ∧
    getSetting (ahCodeExchange raw oauth store).2 "ah_refresh_token" = r := by
  unfold ahCodeExchange
  rw [if_neg hraw]
  unfold exchangeCode
  rw [hok]
  refine ⟨rfl, ?_, ?_⟩
  · rw [getSetting_setSetting_other _ _ _ _ (by decide)]
    exact getSetting_setSetting_self store _ a
  · exact getSetting_setSetting_self _ _ r

/-! ### Cart aggregation (`routes.py` `fill_cart` lines 440-450) -/

/-- One line of the aggregated cart dictionary: `{"product_id", "quantity",
"name"}` keyed by the row's `ah_product_id`. -/
structure CartLine where
  product_id : Option Int
  quantity : Int
  name : Option String
deriving DecidableEq, Repr

/-- One iteration of the aggregation loop: a row whose product id is already
in the cart adds its `ah_quantity` to that line, any other row appends a new
line (Python dicts preserve insertion order). -/
def addLine (cart : List CartLine) (m : IngredientMapping) : List CartLine :=
  if cart.any (fun c => c.product_id == m.ah_product_id) then
    updateFirst (fun c => c.product_id == m.ah_product_id)
      (fun c => { c with quantity := c.quantity + m.ah_quantity }) cart
  else
    cart ++ [{ product_id := m.ah_product_id, quantity := m.ah_quantity,
               name := m.ah_product_name }]

/-- The aggregation of `fill_cart`: fold all contributing rows into cart
lines. -/
def aggregateCart (rows : List IngredientMapping) : List CartLine :=
  rows.foldl addLine []

/-- Total quantity the cart requests for one product id. -/
def qtyIn (cart : List CartLine) (q : Option Int) : Int :=
  ((cart.filter (fun c => c.product_id == q)).map (fun c => c.quantity)).sum

theorem qtyIn_nil (q : Option Int) : qtyIn [] q = 0 := rfl

theorem qtyIn_cons_pos (c : CartLine) (l : List CartLine) (q : Option Int)
    (h : (c.product_id == q) = true) :
    qtyIn (c :: l) q = c.quantity + qtyIn l q := by
  simp [qtyIn, List.filter_cons, h]

theorem qtyIn_cons_neg (c : CartLine) (l : List CartLine) (q : Option Int)
    (h : (c.product_id == q) = false) :
    qtyIn (c :: l) q = qtyIn l q := by
  simp [qtyIn, List.filter_cons, h]

theorem qtyIn_append (l₁ l₂ : List CartLine) (q : Option Int) :
    qtyIn (l₁ ++ l₂) q = qtyIn l₁ q + qtyIn l₂ q := by
  simp [qtyIn, List.filter_append]

theorem updateFirst_cons_pos (p : α → Bool) (f : α → α) (x : α) (xs : List α)
    (hx : p x = true) : updateFirst p f (x :: xs) = f x :: xs := by
  simp [updateFirst, hx]

theorem updateFirst_cons_neg (p : α → Bool) (f : α → α) (x : α) (xs : List α)
    (hx : p x = false) :
    updateFirst p f (x :: xs) = x :: updateFirst p f xs := by
  simp [updateFirst, hx]

theorem qtyIn_updateFirst_add (pid q : Option Int) (d : Int) :
    ∀ cart : List CartLine,
      cart.any (fun c => c.product_id == pid) = true →
      qtyIn (updateFirst (fun c => c.product_id == pid)
          (fun c => { c with quantity := c.quantity + d }) cart) q
        = qtyIn cart q + (if pid == q then d else 0) := by
  intro cart
  induction cart with
  | nil => intro h; simp at h
  | cons x xs ih =>
    intro hany
    by_cases hx : (x.product_id == pid)
    · have hxp : x.product_id = pid := by simpa using hx
      rw [updateFirst_cons_pos (fun c => c.product_id == pid)
        (fun c => { c with quantity := c.quantity + d }) x xs hx]
      by_cases hq : (pid == q)
      · have hxq : (x.product_id == q) = true := by rw [hxp]; exact hq
        rw [qtyIn_cons_pos { x with quantity := x.quantity + d } xs q hxq,
          qtyIn_cons_pos x xs q hxq, if_pos hq]
        ring
      · have hxq : (x.product_id == q) = false := by
          rw [hxp]; simpa using hq
        rw [qtyIn_cons_neg { x with quantity := x.quantity + d } xs q hxq,
          qtyIn_cons_neg x xs q hxq, if_neg (by simpa using hq)]
        omega
    · have htail : xs.any (fun c => c.product_id == pid) = true := by
        simp only [List.any_cons, hx, Bool.false_or] at hany
        exact hany
      rw [updateFirst_cons_neg (fun c => c.product_id == pid)
        (fun c => { c with quantity := c.quantity + d }) x xs
        (by simpa using hx)]
      by_cases hxq : (x.product_id == q)
      · rw [qtyIn_cons_pos _ _ _ hxq, qtyIn_cons_pos _ _ _ hxq, ih htail]
        ring
      · rw [qtyIn_cons_neg _ _ _ (by simpa using hxq),
          qtyIn_cons_neg _ _ _ (by simpa using hxq), ih htail]

theorem qtyIn_addLine (cart : List CartLine) (m : IngredientMapping)
    (q : Option Int) :
    qtyIn (addLine cart m) q
      = qtyIn cart q + (if m.ah_product_id == q then m.ah_quantity else 0) := by
  unfold addLine
  by_cases hany : cart.any (fun c => c.product_id == m.ah_product_id)
  · rw [if_pos hany]
    exact qtyIn_updateFirst_add _ _ _ cart hany
  · rw [if_neg hany, qtyIn_append]
    by_cases hq : (m.ah_product_id == q)
    · rw [if_pos hq, qtyIn_cons_pos _ _ _ hq, qtyIn_nil]
      ring
    · rw [if_neg (by simpa using hq),
        qtyIn_cons_neg _ _ _ (by simpa using hq), qtyIn_nil]

theorem qtyIn_foldl (rows : List IngredientMapping) :
    ∀ (cart : List CartLine) (q : Option Int),
      qtyIn (rows.foldl addLine cart) q
        = qtyIn cart q
          + ((rows.filter (fun m => m.ah_product_id == q)).map
              (fun m => m.ah_quantity)).sum := by
  induction rows with
  | nil => intro cart q; simp
  | cons r rs ih =>
    intro cart q
    rw [List.foldl_cons, ih (addLine cart r) q, qtyIn_addLine]
    by_cases hq : (r.ah_product_id == q)
    · rw [if_pos hq]
      have hfil : List.filter (fun m => m.ah_product_id == q) (r :: rs)
          = r :: List.filter (fun m => m.ah_product_id == q) rs := by
        simp [List.filter_cons, hq]
      rw [hfil, List.map_cons, List.sum_cons]
      ring
    · rw [if_neg (by simpa using hq)]
      have hfil : List.filter (fun m => m.ah_product_id == q) (r :: rs)
          = List.filter (fun m => m.ah_product_id == q) rs := by
        simp [List.filter_cons, hq]
      rw [hfil]
      ring

theorem map_updateFirst (g : α → β) (p : α → Bool) (f : α → α)
    (hg : ∀ x, g (f x) = g x) :
    ∀ l : List α, (updateFirst p f l).map g = l.map g := by
  intro l
  induction l with
  | nil => rfl
  | cons x xs ih =>
    by_cases hx : p x
    · rw [updateFirst_cons_pos p f x xs hx, List.map_cons, List.map_cons, hg x]
    · rw [updateFirst_cons_neg p f x xs (by simpa using hx),
        List.map_cons, List.map_cons, ih]

theorem map_pid_addLine (cart : List CartLine) (m : IngredientMapping) :
    (addLine cart m).map (fun c => c.product_id)
      = if cart.any (fun c => c.product_id == m.ah_product_id) then
          cart.map (fun c => c.product_id)
        else cart.map (fun c => c.product_id) ++ [m.ah_product_id] := by
  unfold addLine
  by_cases hany : cart.any (fun c => c.product_id == m.ah_product_id)
  · rw [if_pos hany, if_pos hany]
    exact map_updateFirst (fun c => c.product_id)
      (fun c => c.product_id == m.ah_product_id)
      (fun c => { c with quantity := c.quantity + m.ah_quantity })
      (fun c => rfl) cart
  · rw [if_neg hany, if_neg hany]
    simp

theorem mem_keys_foldl (rows : List IngredientMapping) :
    ∀ (cart : List CartLine) (q : Option Int),
      q ∈ (rows.foldl addLine cart).map (fun c => c.product_id)
        ↔ q ∈ cart.map (fun c => c.product_id)
          ∨ q ∈ rows.map (fun m => m.ah_product_id) := by
  induction rows with
  | nil => intro cart q; simp
  | cons r rs ih =>
    intro cart q
    rw [List.foldl_cons, ih (addLine cart r) q]
    rw [map_pid_addLine]
    by_cases hany : cart.any (fun c => c.product_id == r.ah_product_id)
    · rw [if_pos hany]
      have hmem : r.ah_product_id ∈ cart.map (fun c => c.product_id) := by
        obtain ⟨c, hc, hcp⟩ := List.any_eq_true.mp hany
        exact List.mem_map.mpr ⟨c, hc, by simpa using hcp⟩
      constructor
      · rintro (h | h)
        · exact Or.inl h
        · exact Or.inr (List.mem_cons_of_mem _ h)
      · rintro (h | h)
        · exact Or.inl h
        · rcases List.mem_cons.mp h with hh | ht
          · exact Or.inl (hh ▸ hmem)
          · exact Or.inr ht
    · rw [if_neg hany]
      simp only [List.mem_append, List.mem_singleton, List.map_cons,
        List.mem_cons]
      tauto

theorem nodup_keys_foldl (rows : List IngredientMapping) :
    ∀ cart : List CartLine,
      (cart.map (fun c => c.product_id)).Nodup →
      ((rows.foldl addLine cart).map (fun c => c.product_id)).Nodup := by
  induction rows with
  | nil => intro cart h; simpa using h
  | cons r rs ih =>
    intro cart h
    rw [List.foldl_cons]
    apply ih
    rw [map_pid_addLine]
    by_cases hany : cart.any (fun c => c.product_id == r.ah_product_id)
    · rw [if_pos hany]; exact h
    · rw [if_neg hany]
      rw [List.nodup_append]
      refine ⟨h, List.nodup_singleton _, ?_⟩
      intro q hq hq1
      rw [List.mem_singleton] at hq1
      subst hq1
      obtain ⟨c, hc, hcp⟩ := List.mem_map.mp hq
      exact hany (List.any_eq_true.mpr ⟨c, hc, by simp [hcp]⟩)

theorem quantity_eq_qtyIn :
    ∀ cart : List CartLine, (cart.map (fun c => c.product_id)).Nodup →
      ∀ c ∈ cart, c.quantity = qtyIn cart c.product_id := by
  intro cart
  induction cart with
  | nil => intro _ c hc; exact absurd hc (List.not_mem_nil c)
  | cons x xs ih =>
    intro hnd c hc
    have hx_notin : x.product_id ∉ xs.map (fun c => c.product_id) :=
      (List.nodup_cons.mp hnd).1
    have hnd_tail : (xs.map (fun c => c.product_id)).Nodup :=
      (List.nodup_cons.mp hnd).2
    rcases List.mem_cons.mp hc with hh | ht
    · subst hh
      have hz : qtyIn xs c.product_id = 0 := by
        unfold qtyIn
        have hfil : xs.filter (fun d => d.product_id == c.product_id) = [] := by
          rw [List.filter_eq_nil_iff]
          intro d hd hdp
          exact hx_notin (List.mem_map.mpr ⟨d, hd, by simpa using hdp⟩)
        rw [hfil]
        rfl
      rw [qtyIn_cons_pos c xs c.product_id (by simp), hz]
      omega
    · have hxne : (x.product_id == c.product_id) = false := by
        simp only [beq_eq_false_iff_ne]
        intro heq
        exact hx_notin (List.mem_map.mpr ⟨c, ht, heq.symm⟩)
      rw [qtyIn_cons_neg x xs c.product_id hxne]
      exact ih hnd_tail c ht

/-! ### Retailer auth client (`clients/ah.py` `AHClient`)

The client's attribute state is passed explicitly, the answers of the AH
endpoints are world values, and every outbound HTTP call (plus every
invocation of the persistence callback) is recorded in an event trace. -/

/-- Python truthiness of an optional token string (`if not self._user_token`
is true for both `None` and `""`). -/
def truthy : Option String → Bool
  | none => false
  | some s => s != ""

/-- One outbound HTTP call or callback invocation, in program order. -/
inductive AHEvent
  | fetchAnon (outcome : Option String)
  | searchCall (tok : String)
  | refreshCall
  | callbackInvoked (access refresh : String)
  | cartCall (tok : String)
  | mealieMealplans
deriving DecidableEq, Repr

/-- Errors the client raises: the two `ValueError`s of `add_to_cart` and
`raise_for_status` failures. -/
inductive AHErr
  | noToken
  | tokenExpired
  | anonFetchFailed
  | httpStatus (status : Nat)
deriving DecidableEq, Repr

/-- In-memory state of the `AHClient` singleton (ah.py lines 20-24), plus
whether a persistence callback is registered. -/
structure AHState where
  anonToken : Option String
  userToken : Option String
  userRefreshToken : Option String
  hasCallback : Bool
deriving DecidableEq, Repr

/-- `_get_anonymous_token` (ah.py lines 26-40): return the cached token when
truthy, otherwise POST the anonymous-token endpoint and cache the answer;
`fetched = none` models a failing POST (`raise_for_status` raises before the
cache is written). -/
def getAnonymousToken (st : AHState) (fetched : Option String) :
    Except AHErr String × AHState × List AHEvent :=
  if truthy st.anonToken then (.ok (st.anonToken.getD ""), st, [])
  else
    match fetched with
    | some tok =>
      (.ok tok, { st with anonToken := some tok }, [.fetchAnon (some tok)])
    | none => (.error .anonFetchFailed, st, [.fetchAnon none])

/-- Answers of the endpoints a `search_products` run can reach: the outcome of
up to two anonymous-token fetches and the statuses of up to two search GETs. -/
structure SearchWorld where
  fetch1 : Option String
  firstStatus : Nat
  fetch2 : Option String
  secondStatus : Nat
deriving DecidableEq, Repr

/-- `search_products` (ah.py lines 83-123), with the product-list payload
abstracted away: get an anonymous token, GET the search endpoint; on a 401
drop the cached token, fetch a fresh one and retry exactly once; any other
non-2xx status raises. -/
def searchProducts (st : AHState) (w : SearchWorld) :
    Except AHErr Unit × AHState × List AHEvent :=
  match getAnonymousToken st w.fetch1 with
  | (.error e, st1, evs1) => (.error e, st1, evs1)
  | (.ok tok, st1, evs1) =>
    let evs := evs1 ++ [.searchCall tok]
    if w.firstStatus = 401 then
      match getAnonymousToken { st1 with anonToken := none } w.fetch2 with
      | (.error e, st3, evs2) => (.error e, st3, evs ++ evs2)
      | (.ok tok2, st3, evs2) =>
        let evsB := evs ++ evs2 ++ [.searchCall tok2]
        if 400 ≤ w.secondStatus then
          (.error (.httpStatus w.secondStatus), st3, evsB)
        else (.ok (), st3, evsB)
    else if 400 ≤ w.firstStatus then
      (.error (.httpStatus w.firstStatus), st1, evs)
    else (.ok (), st1, evs)

/-- Answer of the refresh-token endpoint combined with the behaviour of the
registered callback: a parsed body with both tokens whose callback invocation
(if any) returns normally; an HTTP/transport failure (or a body with no
`access_token`); a body with an `access_token` but no `refresh_token`; or a
parsed body with both tokens whose callback invocation raises. -/
inductive RefreshOutcome
  | ok (access refresh : String)
  | httpError
  | missingRefresh (access : String)
  | okCallbackRaises (access refresh : String)
deriving DecidableEq, Repr

/-- `_refresh_user_token` (ah.py lines 55-81): without a truthy refresh token
return False with no HTTP call; otherwise POST the refresh endpoint; on a
parsed body `self._user_token` is assigned before `data["refresh_token"]` is
read, so a body missing `refresh_token` overwrites the access token and then
falls into the `except` branch returning False; with both tokens parsed, both
attributes are assigned (lines 71-72) and then the callback, when registered,
is invoked with the new pair (lines 74-77) — if that invocation raises, the
`except` at line 79 returns False with BOTH tokens already overwritten (with
no callback registered nothing can raise there, so that world degenerates to
success). -/
def refreshUserToken (st : AHState) (w : RefreshOutcome) :
    Bool × AHState × List AHEvent :=
  if ¬ truthy st.userRefreshToken then (false, st, [])
  else
    match w with
    | .httpError => (false, st, [.refreshCall])
    | .ok a r =>
      (true, { st with userToken := some a, userRefreshToken := some r },
        [.refreshCall] ++ (if st.hasCallback then [.callbackInvoked a r] else []))
    | .missingRefresh a =>
      (false, { st with userToken := some a }, [.refreshCall])
    | .okCallbackRaises a r =>
      if st.hasCallback then
        (false, { st with userToken := some a, userRefreshToken := some r },
          [.refreshCall, .callbackInvoked a r])
      else
        (true, { st with userToken := some a, userRefreshToken := some r },
          [.refreshCall])

/-- Answers of the endpoints an `add_to_cart` run can reach. -/
structure CartWorld where
  firstStatus : Nat
  refresh : RefreshOutcome
  secondStatus : Nat
deriving DecidableEq, Repr

/-- `add_to_cart` (ah.py lines 125-167): fail fast without a truthy access
token; PATCH the cart endpoint; on a 401 run exactly one refresh cycle and
either raise the token-expired `ValueError` or retry once with the refreshed
token; any remaining non-2xx status raises. -/
def addToCart (st : AHState) (w : CartWorld) :
    Except AHErr Unit × AHState × List AHEvent :=
  if ¬ truthy st.userToken then (.error .noToken, st, [])
  else
    let evs0 := [AHEvent.cartCall (st.userToken.getD "")]
    if w.firstStatus = 401 then
      match refreshUserToken st w.refresh with
      | (false, st1, evs1) => (.error .tokenExpired, st1, evs0 ++ evs1)
      | (true, st1, evs1) =>
        let evs := evs0 ++ evs1 ++ [.cartCall (st1.userToken.getD "")]
        if 400 ≤ w.secondStatus then
          (.error (.httpStatus w.secondStatus), st1, evs)
        else (.ok (), st1, evs)
    else if 400 ≤ w.firstStatus then
      (.error (.httpStatus w.firstStatus), st, evs0)
    else (.ok (), st, evs0)

/-- Count the anonymous-token POSTs in a trace. -/
def countFetch (evs : List AHEvent) : Nat :=
  evs.countP (fun e => match e with | .fetchAnon _ => true | _ => false)

/-- Count the search GETs in a trace. -/
def countSearch (evs : List AHEvent) : Nat :=
  evs.countP (fun e => match e with | .searchCall _ => true | _ => false)

/-- Count the refresh POSTs in a trace. -/
def countRefresh (evs : List AHEvent) : Nat :=
  evs.countP (fun e => match e with | .refreshCall => true | _ => false)

/-- Count the cart PATCHes in a trace. -/
def countCart (evs : List AHEvent) : Nat :=
  evs.countP (fun e => match e with | .cartCall _ => true | _ => false)

/-! ### `fill_cart` (`routes.py` lines 409-468) -/

/-- One meal-plan entry as `fill_cart` reads it: `plan.get("recipe")` with an
optional slug, and the `recipeId` fallback field (absent reads as ""). -/
structure Plan where
  recipeSlug : Option String
  recipeId : String
deriving DecidableEq, Repr

/-- `recipe.get("slug") or plan.get("recipeId", "")`. -/
def effectiveSlug (p : Plan) : String :=
  if truthy p.recipeSlug then p.recipeSlug.getD "" else p.recipeId

/-- The set of recipe slugs referenced by the fetched plans (a Python set;
only membership is observable). -/
def extractSlugs (plans : List Plan) : List String :=
  ((plans.map effectiveSlug).filter (fun s => s != "")).dedup

/-- The DB query of `fill_cart`: rows of the planned recipes with
`status == "mapped"` and a non-null product id. -/
def cartRows (store : List IngredientMapping) (slugs : List String) :
    List IngredientMapping :=
  store.filter (fun m =>
    slugs.contains m.recipe_slug && m.status == MapStatus.mapped
      && m.ah_product_id.isSome)

/-- Everything a `fill_cart` run reads: the meal plans, the DB mapping rows,
the two persisted token settings, and the cart endpoint's answers. -/
structure FillWorld where
  plans : List Plan
  store : List IngredientMapping
  accessToken : String
  refreshToken : String
  cart : CartWorld
deriving DecidableEq, Repr

/-- The recoverable outcomes `fill_cart` reports as `{"ok": False}`. -/
inductive FillErr
  | noRecipes
  | noMappings
  | noToken
  | cartFailed (e : AHErr)
deriving DecidableEq, Repr

/-- `fill_cart` (routes.py lines 409-468): fetch the meal plans (one HTTP call
to the recipe gateway), collect the planned recipe slugs, read the mapped
rows, aggregate them, check the persisted tokens, and submit the cart through
`add_to_cart` with the persistence callback registered.  On success the
reported `items_added` is the number of cart lines. -/
def fillCart (w : FillWorld) : Except FillErr Nat × List AHEvent :=
  let evs0 := [AHEvent.mealieMealplans]
  let slugs := extractSlugs w.plans
  if slugs.isEmpty then (.error .noRecipes, evs0)
  else
    let mappings := cartRows w.store slugs
    if mappings.isEmpty then (.error .noMappings, evs0)
    else
      let cart := aggregateCart mappings
      if w.accessToken = "" ∧ w.refreshToken = "" then (.error .noToken, evs0)
      else
        let st : AHState :=
          { anonToken := none, userToken := some w.accessToken,
            userRefreshToken := some w.refreshToken, hasCallback := true }
        match addToCart st w.cart with
        | (.ok _, _, evs) => (.ok cart.length, evs0 ++ evs)
        | (.error e, _, evs) => (.error (.cartFailed e), evs0 ++ evs)

/-- Example row: recipe A needs product 100 with quantity 2. -/
def rowA100 : IngredientMapping :=
  { recipe_slug := "a", recipe_name := "A", ingredient_reference_id := "a1",
    ingredient_display := "2 uien", status := .mapped,
    ah_product_id := some 100, ah_product_name := some "Uien",
    ah_product_image_url := none, ah_product_unit_size := none,
    ah_product_price := none, ah_quantity := 2 }

/-- Example row: recipe B needs product 100 with quantity 1. -/
def rowB100 : IngredientMapping :=
  { recipe_slug := "b", recipe_name := "B", ingredient_reference_id := "b1",
    ingredient_display := "1 ui", status := .mapped,
    ah_product_id := some 100, ah_product_name := some "Uien",
    ah_product_image_url := none, ah_product_unit_size := none,
    ah_product_price := none, ah_quantity := 1 }

/-- Example row: recipe B needs product 200 with quantity 1. -/
def rowB200 : IngredientMapping :=
  { recipe_slug := "b", recipe_name := "B", ingredient_reference_id := "b2",
    ingredient_display := "1 tomaat", status := .mapped,
    ah_product_id := some 200, ah_product_name := some "Tomaten",
    ah_product_image_url := none, ah_product_unit_size := none,
    ah_product_price := none, ah_quantity := 1 }

/-- C1: for every list of contributing rows the aggregated cart has exactly
one line per distinct product id (line keys are duplicate-free and are
exactly the product ids of the rows), each line's quantity is the sum of
`ah_quantity` over the rows with that product id, the number of lines is the
number of distinct product ids, a successful `fill_cart` reports
`items_added` equal to that number of lines, and on the spec's concrete
input the cart is exactly the two lines (product 100, qty 3) and
(product 200, qty 1). -/
theorem fill_cart_aggregation_correct :
    (∀ rows : List IngredientMapping,
      ((aggregateCart rows).map (fun c => c.product_id)).Nodup ∧
      (∀ q, q ∈ (aggregateCart rows).map (fun c => c.product_id)
        ↔ q ∈ rows.map (fun m => m.ah_product_id)) ∧
      (∀ c ∈ aggregateCart rows,
        c.quantity
          = ((rows.filter (fun m => m.ah_product_id == c.product_id)).map
              (fun m => m.ah_quantity)).sum) ∧
      (aggregateCart rows).length
        = (rows.map (fun m => m.ah_product_id)).dedup.length) ∧
    (∀ (w : FillWorld) (n : Nat), (fillCart w).1 = .ok n →
      n = (aggregateCart (cartRows w.store (extractSlugs w.plans))).length) ∧
    aggregateCart [rowA100, rowB100, rowB200]
      = [{ product_id := some 100, quantity := 3, name := some "Uien" },
         { product_id := some 200, quantity := 1, name := some "Tomaten" }] := by
  refine ⟨?_, ?_, ?_⟩
  · intro rows
    have hnodup : ((aggregateCart rows).map (fun c => c.product_id)).Nodup :=
      nodup_keys_foldl rows [] (by simp)
    have hmem : ∀ q, q ∈ (aggregateCart rows).map (fun c => c.product_id)
        ↔ q ∈ rows.map (fun m => m.ah_product_id) := by
      intro q
      rw [aggregateCart, mem_keys_foldl rows [] q]
      simp
    refine ⟨hnodup, hmem, ?_, ?_⟩
    · intro c hc
      have h1 : c.quantity = qtyIn (aggregateCart rows) c.product_id :=
        quantity_eq_qtyIn (aggregateCart rows) hnodup c hc
      have h2 : qtyIn (aggregateCart rows) c.product_id
          = ((rows.filter (fun m => m.ah_product_id == c.product_id)).map
              (fun m => m.ah_quantity)).sum := by
        rw [aggregateCart, qtyIn_foldl rows [] c.product_id, qtyIn_nil]
        ring
      rw [h1, h2]
    · have hfin : ((aggregateCart rows).map (fun c => c.product_id)).toFinset
          = (rows.map (fun m => m.ah_product_id)).toFinset := by
        apply Finset.ext
        intro q
        rw [List.mem_toFinset, List.mem_toFinset]
        exact hmem q
      calc (aggregateCart rows).length
          = ((aggregateCart rows).map (fun c => c.product_id)).length := by
            rw [List.length_map]
        _ = ((aggregateCart rows).map (fun c => c.product_id)).toFinset.card :=
            (List.toFinset_card_of_nodup hnodup).symm
        _ = (rows.map (fun m => m.ah_product_id)).toFinset.card := by rw [hfin]
        _ = (rows.map (fun m => m.ah_product_id)).dedup.length :=
            List.card_toFinset _
  · intro w n h
    simp only [fillCart] at h
    split at h
    · simp at h
    · split at h
      · simp at h
      · split at h
        · simp at h
        · split at h
          · rename_i heq
            simp only [Except.ok.injEq] at h
            exact h.symm
          · simp at h
  · rfl

/-- C1 witness: the general theorem applied at the spec's concrete input —
the key lemma instantiated at product 100, the per-line quantity at the
aggregated line for product 100, and `items_added` of a successful concrete
`fill_cart` run. -/
theorem fill_cart_aggregation_correct_witness :
    ((some 100 : Option Int)
        ∈ (aggregateCart [rowA100, rowB100, rowB200]).map
            (fun c => c.product_id)
      ↔ (some 100 : Option Int)
        ∈ [rowA100, rowB100, rowB200].map (fun m => m.ah_product_id)) ∧
    ({ product_id := some 100, quantity := 3, name := some "Uien" }
        : CartLine).quantity
      = (([rowA100, rowB100, rowB200].filter
            (fun m => m.ah_product_id
              == ({ product_id := some 100, quantity := 3,
                    name := some "Uien" } : CartLine).product_id)).map
          (fun m => m.ah_quantity)).sum ∧
    (2 : Nat)
      = (aggregateCart (cartRows [rowA100, rowB100, rowB200]
          (extractSlugs [{ recipeSlug := some "a", recipeId := "" },
                         { recipeSlug := some "b", recipeId := "" }]))).length := by
  have h := fill_cart_aggregation_correct
  refine ⟨(h.1 [rowA100, rowB100, rowB200]).2.1 (some 100), ?_, ?_⟩
  · exact (h.1 [rowA100, rowB100, rowB200]).2.2.1
      { product_id := some 100, quantity := 3, name := some "Uien" }
      (by rw [h.2.2]; simp)
  · exact h.2.1
      { plans := [{ recipeSlug := some "a", recipeId := "" },
                  { recipeSlug := some "b", recipeId := "" }],
        store := [rowA100, rowB100, rowB200],
        accessToken := "tok", refreshToken := "ref",
        cart := { firstStatus := 200, refresh := .httpError,
                  secondStatus := 200 } } 2 (by rfl)

/-- A `fill_cart` run with a planned, mapped recipe but no persisted access or
refresh token. -/
def noTokenWorld : FillWorld :=
  { plans := [{ recipeSlug := some "a", recipeId := "" }],
    store := [rowA100], accessToken := "", refreshToken := "",
    cart := { firstStatus := 200, refresh := .httpError, secondStatus := 200 } }

/-- C4 counterexample: with neither token configured, `fill_cart` does fail
with the authenticate error, but only after issuing the meal-plan HTTP call —
the trace up to the failure has one HTTP call, not zero. -/
theorem fill_cart_no_token_issues_gateway_call :
    (fillCart noTokenWorld).1 = .error .noToken ∧
    (fillCart noTokenWorld).2 = [.mealieMealplans] ∧
    ¬ (fillCart noTokenWorld).2.length = 0 := by
  refine ⟨rfl, rfl, by decide⟩

/-- C4 (amended): `add_to_cart` without a truthy access token fails with the
explicit no-token error before any HTTP call (its trace is empty), and
`fill_cart` with neither persisted token, planned recipes and mapped rows
fails with the explicit authenticate error having issued no retailer HTTP
call — its trace up to the failure is exactly the single meal-plan fetch. -/
theorem no_token_fails_before_any_retailer_call :
    (∀ (st : AHState) (w : CartWorld), truthy st.userToken = false →
      addToCart st w = (.error .noToken, st, [])) ∧
    (∀ w : FillWorld, w.accessToken = "" → w.refreshToken = "" →
      (extractSlugs w.plans).isEmpty = false →
      (cartRows w.store (extractSlugs w.plans)).isEmpty = false →
      fillCart w = (.error .noToken, [.mealieMealplans])) := by
  constructor
  · intro st w h
    rw [addToCart, if_pos (by simp [h])]
  · intro w ha hr hslugs hrows
    rw [fillCart]
    rw [if_neg (by simp [hslugs]), if_neg (by simp [hrows]),
      if_pos ⟨ha, hr⟩]

/-- A client state with no tokens at all. -/
def emptyClientState : AHState :=
  { anonToken := none, userToken := none, userRefreshToken := none,
    hasCallback := false }

/-- A cart world whose endpoint answers 200 everywhere. -/
def benignCartWorld : CartWorld :=
  { firstStatus := 200, refresh := .httpError, secondStatus := 200 }

/-- C4 witness: the amended theorem applied at a token-less client state and
at the concrete no-token `fill_cart` world. -/
theorem no_token_fails_before_any_retailer_call_witness :
    addToCart emptyClientState benignCartWorld
      = (.error .noToken, emptyClientState, []) ∧
    fillCart noTokenWorld = (.error .noToken, [.mealieMealplans]) := by
  have h := no_token_fails_before_any_retailer_call
  exact ⟨h.1 emptyClientState benignCartWorld (by decide),
    h.2 noTokenWorld (by decide) (by decide) (by decide) (by decide)⟩

theorem addToCart_401 (st : AHState) (w : CartWorld)
    (htok : truthy st.userToken = true) (h401 : w.firstStatus = 401) :
    addToCart st w =
      match refreshUserToken st w.refresh with
      | (false, st1, evs1) =>
        (.error .tokenExpired, st1,
          [AHEvent.cartCall (st.userToken.getD "")] ++ evs1)
      | (true, st1, evs1) =>
        if 400 ≤ w.secondStatus then
          (.error (.httpStatus w.secondStatus), st1,
            [AHEvent.cartCall (st.userToken.getD "")] ++ evs1
              ++ [.cartCall (st1.userToken.getD "")])
        else
          (.ok (), st1,
            [AHEvent.cartCall (st.userToken.getD "")] ++ evs1
              ++ [.cartCall (st1.userToken.getD "")]) := by
  rw [addToCart, if_neg (by simp [htok]), if_pos h401]

theorem refreshUserToken_noToken (st : AHState) (w : RefreshOutcome)
    (hrt : truthy st.userRefreshToken = false) :
    refreshUserToken st w = (false, st, []) := by
  rw [refreshUserToken.eq_def, if_pos (by simp [hrt])]

theorem refreshUserToken_httpError (st : AHState)
    (hrt : truthy st.userRefreshToken = true) :
    refreshUserToken st .httpError = (false, st, [.refreshCall]) := by
  rw [refreshUserToken.eq_def, if_neg (by simp [hrt])]

theorem refreshUserToken_ok (st : AHState) (a r : String)
    (hrt : truthy st.userRefreshToken = true) :
    refreshUserToken st (.ok a r)
      = (true, { st with userToken := some a, userRefreshToken := some r },
         [.refreshCall]
           ++ (if st.hasCallback then [.callbackInvoked a r] else [])) := by
  rw [refreshUserToken.eq_def, if_neg (by simp [hrt])]

theorem refreshUserToken_missingRefresh (st : AHState) (a : String)
    (hrt : truthy st.userRefreshToken = true) :
    refreshUserToken st (.missingRefresh a)
      = (false, { st with userToken := some a }, [.refreshCall]) := by
  rw [refreshUserToken.eq_def, if_neg (by simp [hrt])]

theorem refreshUserToken_callbackSplit (st : AHState) (a r : String)
    (hrt : truthy st.userRefreshToken = true) :
    refreshUserToken st (.okCallbackRaises a r)
      = if st.hasCallback then
          (false,
           { st with userToken := some a, userRefreshToken := some r },
           [.refreshCall, .callbackInvoked a r])
        else
          (true,
           { st with userToken := some a, userRefreshToken := some r },
           [.refreshCall]) := by
  rw [refreshUserToken.eq_def, if_neg (by simp [hrt])]

theorem refreshUserToken_callbackRaises (st : AHState) (a r : String)
    (hrt : truthy st.userRefreshToken = true) (hcb : st.hasCallback = true) :
    refreshUserToken st (.okCallbackRaises a r)
      = (false, { st with userToken := some a, userRefreshToken := some r },
         [.refreshCall, .callbackInvoked a r]) := by
  rw [refreshUserToken_callbackSplit st a r hrt, if_pos hcb]

theorem refreshUserToken_callbackAbsent (st : AHState) (a r : String)
    (hrt : truthy st.userRefreshToken = true) (hcb : st.hasCallback = false) :
    refreshUserToken st (.okCallbackRaises a r)
      = (true, { st with userToken := some a, userRefreshToken := some r },
         [.refreshCall]) := by
  rw [refreshUserToken_callbackSplit st a r hrt, if_neg (by simp [hcb])]

/-- C2: on a 401 from the cart endpoint, with a user access token configured,
exactly one refresh cycle runs.  If the refresh succeeds the in-memory tokens
become exactly the returned pair, the persistence callback (when registered)
is invoked with exactly those values before the retry, and the cart request
is retried exactly once with the new token — a second 401 (or any error
status) on the retry propagates with no further attempt.  If the refresh
fails (no refresh token, or the refresh call errors) the operation fails with
the explicit token-expired error after the single original cart call. -/
theorem add_to_cart_single_refresh_and_retry
    (st : AHState) (w : CartWorld)
    (htok : truthy st.userToken = true) (h401 : w.firstStatus = 401) :
    countRefresh (addToCart st w).2.2 ≤ 1 ∧
    (∀ a r, truthy st.userRefreshToken = true → w.refresh = .ok a r →
      (addToCart st w).2.1.userToken = some a ∧
      (addToCart st w).2.1.userRefreshToken = some r ∧
      (addToCart st w).2.2
        = [.cartCall (st.userToken.getD ""), .refreshCall]
          ++ (if st.hasCallback then [.callbackInvoked a r] else [])
          ++ [.cartCall a] ∧
      countCart (addToCart st w).2.2 = 2 ∧
      (w.secondStatus < 400 → (addToCart st w).1 = .ok ()) ∧
      (400 ≤ w.secondStatus →
        (addToCart st w).1 = .error (.httpStatus w.secondStatus))) ∧
    (truthy st.userRefreshToken = false →
      (addToCart st w).1 = .error .tokenExpired ∧
      (addToCart st w).2.1 = st ∧
      (addToCart st w).2.2 = [.cartCall (st.userToken.getD "")]) ∧
    (truthy st.userRefreshToken = true → w.refresh = .httpError →
      (addToCart st w).1 = .error .tokenExpired ∧
      (addToCart st w).2.1 = st ∧
      (addToCart st w).2.2
        = [.cartCall (st.userToken.getD ""), .refreshCall]) := by
  have hred := addToCart_401 st w htok h401
  refine ⟨?_, ?_, ?_, ?_⟩
  · cases hrt : truthy st.userRefreshToken
    · rw [hred, refreshUserToken_noToken st w.refresh hrt]
      simp [countRefresh]
    · cases hw : w.refresh with
      | httpError =>
        rw [hred, hw, refreshUserToken_httpError st hrt]
        simp [countRefresh]
      | missingRefresh a =>
        rw [hred, hw, refreshUserToken_missingRefresh st a hrt]
        simp [countRefresh]
      | ok a r =>
        rw [hred, hw, refreshUserToken_ok st a r hrt]
        by_cases h4 : 400 ≤ w.secondStatus <;>
          cases hcb : st.hasCallback <;>
            simp [h4, hcb, countRefresh, List.countP_append,
              List.countP_cons]
      | okCallbackRaises a r =>
        cases hcb : st.hasCallback
        · rw [hred, hw, refreshUserToken_callbackAbsent st a r hrt hcb]
          by_cases h4 : 400 ≤ w.secondStatus <;>
            simp [h4, countRefresh, List.countP_append, List.countP_cons]
        · rw [hred, hw, refreshUserToken_callbackRaises st a r hrt hcb]
          simp [countRefresh, List.countP_append, List.countP_cons]
  · intro a r hrt hw
    have hok2 : addToCart st w =
        if 400 ≤ w.secondStatus then
          (.error (.httpStatus w.secondStatus),
           { st with userToken := some a, userRefreshToken := some r },
           [AHEvent.cartCall (st.userToken.getD ""), .refreshCall]
             ++ (if st.hasCallback then [.callbackInvoked a r] else [])
             ++ [.cartCall a])
        else
          (.ok (),
           { st with userToken := some a, userRefreshToken := some r },
           [AHEvent.cartCall (st.userToken.getD ""), .refreshCall]
             ++ (if st.hasCallback then [.callbackInvoked a r] else [])
             ++ [.cartCall a]) := by
      rw [hred, hw, refreshUserToken_ok st a r hrt]
      rfl
    by_cases h4 : 400 ≤ w.secondStatus
    · rw [hok2, if_pos h4]
      refine ⟨rfl, rfl, rfl, ?_, fun hlt => absurd h4 (by omega),
        fun _ => rfl⟩
      cases hcb : st.hasCallback <;>
        simp [hcb, countCart, List.countP_append, List.countP_cons]
    · rw [hok2, if_neg h4]
      refine ⟨rfl, rfl, rfl, ?_, fun _ => rfl, fun hge => absurd hge h4⟩
      cases hcb : st.hasCallback <;>
        simp [hcb, countCart, List.countP_append, List.countP_cons]
  · intro hrt
    rw [hred, refreshUserToken_noToken st w.refresh hrt]
    exact ⟨rfl, rfl, rfl⟩
  · intro hrt hw
    rw [hred, hw, refreshUserToken_httpError st hrt]
    exact ⟨rfl, rfl, rfl⟩

/-- A client whose access token has expired but whose refresh token is valid,
with the persistence callback registered. -/
def cartDemoState : AHState :=
  { anonToken := none, userToken := some "expired-access",
    userRefreshToken := some "valid-refresh", hasCallback := true }

/-- A cart world answering 401 then, after a successful refresh to the pair
("fresh-access", "fresh-refresh"), 200. -/
def cartDemoWorld : CartWorld :=
  { firstStatus := 401, refresh := .ok "fresh-access" "fresh-refresh",
    secondStatus := 200 }

/-- C2 witness: the concrete 401-refresh-retry run ends with the refreshed
pair installed, the callback invoked with exactly that pair, two cart calls
with the retry using the new token, and success. -/
theorem add_to_cart_single_refresh_and_retry_witness :
    (addToCart cartDemoState cartDemoWorld).2.1.userToken
        = some "fresh-access" ∧
    (addToCart cartDemoState cartDemoWorld).2.1.userRefreshToken
        = some "fresh-refresh" ∧
    (addToCart cartDemoState cartDemoWorld).2.2
        = [.cartCall "expired-access", .refreshCall,
           .callbackInvoked "fresh-access" "fresh-refresh",
           .cartCall "fresh-access"] ∧
    (addToCart cartDemoState cartDemoWorld).1 = .ok () := by
  have h := (add_to_cart_single_refresh_and_retry cartDemoState cartDemoWorld
    (by decide) rfl).2.1 "fresh-access" "fresh-refresh" (by decide) rfl
  exact ⟨h.1, h.2.1, by rw [h.2.2.1]; rfl, h.2.2.2.2.1 (by decide)⟩

/-! ### Search retry (C3) -/

theorem getAnonymousToken_cached (st : AHState) (f : Option String)
    (hc : truthy st.anonToken = true) :
    getAnonymousToken st f = (.ok (st.anonToken.getD ""), st, []) := by
  rw [getAnonymousToken.eq_def, if_pos hc]

theorem getAnonymousToken_fetch (st : AHState) (t : String)
    (hc : truthy st.anonToken = false) :
    getAnonymousToken st (some t)
      = (.ok t, { st with anonToken := some t }, [.fetchAnon (some t)]) := by
  rw [getAnonymousToken.eq_def, if_neg (by simp [hc])]

/-- C3 counterexample: a 401-then-200 search run that starts with a cached
(expired) anonymous token performs exactly ONE anonymous-token fetch (and two
search calls), not the two fetches the claim states for the cached case. -/
theorem search_cached_fetch_count_one :
    countFetch (searchProducts
      { anonToken := some "expired-tok", userToken := none,
        userRefreshToken := none, hasCallback := false }
      { fetch1 := none, firstStatus := 401, fetch2 := some "new-tok",
        secondStatus := 200 }).2.2 = 1 ∧
    ¬ countFetch (searchProducts
      { anonToken := some "expired-tok", userToken := none,
        userRefreshToken := none, hasCallback := false }
      { fetch1 := none, firstStatus := 401, fetch2 := some "new-tok",
        secondStatus := 200 }).2.2 = 2 ∧
    countSearch (searchProducts
      { anonToken := some "expired-tok", userToken := none,
        userRefreshToken := none, hasCallback := false }
      { fetch1 := none, firstStatus := 401, fetch2 := some "new-tok",
        secondStatus := 200 }).2.2 = 2 ∧
    (searchProducts
      { anonToken := some "expired-tok", userToken := none,
        userRefreshToken := none, hasCallback := false }
      { fetch1 := none, firstStatus := 401, fetch2 := some "new-tok",
        secondStatus := 200 }).1 = .ok () := by
  refine ⟨by decide, by decide, by decide, rfl⟩

/-- C3 (amended): on a search 401 the cached anonymous token is invalidated,
a fresh one is fetched and the request retried exactly once — a 401-then-
success run performs exactly 2 search calls and exactly ONE anonymous-token
fetch when a token was cached at entry (TWO when none was cached), the new
token ends up cached, and when the retry also fails the error propagates
after exactly 2 search attempts with no third. -/
theorem search_401_retry_and_fetch_counts
    (st : AHState) (w : SearchWorld) (h401 : w.firstStatus = 401) :
    (∀ t2, truthy st.anonToken = true → w.fetch2 = some t2 →
      countFetch (searchProducts st w).2.2 = 1 ∧
      countSearch (searchProducts st w).2.2 = 2 ∧
      (searchProducts st w).2.1.anonToken = some t2 ∧
      (w.secondStatus < 400 → (searchProducts st w).1 = .ok ()) ∧
      (400 ≤ w.secondStatus →
        (searchProducts st w).1 = .error (.httpStatus w.secondStatus))) ∧
    (∀ t1 t2, truthy st.anonToken = false →
      w.fetch1 = some t1 → w.fetch2 = some t2 →
      countFetch (searchProducts st w).2.2 = 2 ∧
      countSearch (searchProducts st w).2.2 = 2 ∧
      (searchProducts st w).2.1.anonToken = some t2 ∧
      (w.secondStatus < 400 → (searchProducts st w).1 = .ok ()) ∧
      (400 ≤ w.secondStatus →
        (searchProducts st w).1 = .error (.httpStatus w.secondStatus))) := by
  constructor
  · intro t2 hc hf2
    have h1 := getAnonymousToken_cached st w.fetch1 hc
    have h2 : getAnonymousToken { st with anonToken := none } w.fetch2
        = (.ok t2, { st with anonToken := some t2 },
           [.fetchAnon (some t2)]) := by
      rw [hf2]
      exact getAnonymousToken_fetch { st with anonToken := none } t2 rfl
    have hrun : searchProducts st w =
        if 400 ≤ w.secondStatus then
          (.error (.httpStatus w.secondStatus),
           { st with anonToken := some t2 },
           [.searchCall (st.anonToken.getD ""), .fetchAnon (some t2),
            .searchCall t2])
        else
          (.ok (), { st with anonToken := some t2 },
           [.searchCall (st.anonToken.getD ""), .fetchAnon (some t2),
            .searchCall t2]) := by
      rw [searchProducts, h1, h401, hf2]
      rfl
    by_cases h4 : 400 ≤ w.secondStatus
    · rw [hrun, if_pos h4]
      exact ⟨by simp [countFetch], by simp [countSearch], rfl,
        fun hlt => absurd h4 (by omega), fun _ => rfl⟩
    · rw [hrun, if_neg h4]
      exact ⟨by simp [countFetch], by simp [countSearch], rfl,
        fun _ => rfl, fun hge => absurd hge h4⟩
  · intro t1 t2 hc hf1 hf2
    have h1 : getAnonymousToken st w.fetch1
        = (.ok t1, { st with anonToken := some t1 },
           [.fetchAnon (some t1)]) := by
      rw [hf1]
      exact getAnonymousToken_fetch st t1 hc
    have h2 : getAnonymousToken { st with anonToken := none } w.fetch2
        = (.ok t2, { st with anonToken := some t2 },
           [.fetchAnon (some t2)]) := by
      rw [hf2]
      exact getAnonymousToken_fetch { st with anonToken := none } t2 rfl
    have hrun : searchProducts st w =
        if 400 ≤ w.secondStatus then
          (.error (.httpStatus w.secondStatus),
           { st with anonToken := some t2 },
           [.fetchAnon (some t1), .searchCall t1, .fetchAnon (some t2),
            .searchCall t2])
        else
          (.ok (), { st with anonToken := some t2 },
           [.fetchAnon (some t1), .searchCall t1, .fetchAnon (some t2),
            .searchCall t2]) := by
      rw [searchProducts, h1, h401, hf2]
      rfl
    by_cases h4 : 400 ≤ w.secondStatus
    · rw [hrun, if_pos h4]
      exact ⟨by simp [countFetch], by simp [countSearch], rfl,
        fun hlt => absurd h4 (by omega), fun _ => rfl⟩
    · rw [hrun, if_neg h4]
      exact ⟨by simp [countFetch], by simp [countSearch], rfl,
        fun _ => rfl, fun hge => absurd hge h4⟩

/-- C3 witness: the amended theorem applied at the cached-token run and at a
cache-less run. -/
theorem search_401_retry_and_fetch_counts_witness :
    countFetch (searchProducts
      { anonToken := some "cached", userToken := none,
        userRefreshToken := none, hasCallback := false }
      { fetch1 := none, firstStatus := 401, fetch2 := some "n2",
        secondStatus := 200 }).2.2 = 1 ∧
    countFetch (searchProducts
      { anonToken := none, userToken := none,
        userRefreshToken := none, hasCallback := false }
      { fetch1 := some "n1", firstStatus := 401, fetch2 := some "n2",
        secondStatus := 200 }).2.2 = 2 := by
  constructor
  · exact ((search_401_retry_and_fetch_counts
      { anonToken := some "cached", userToken := none,
        userRefreshToken := none, hasCallback := false }
      { fetch1 := none, firstStatus := 401, fetch2 := some "n2",
        secondStatus := 200 } rfl).1 "n2" (by decide) rfl).1
  · exact ((search_401_retry_and_fetch_counts
      { anonToken := none, userToken := none,
        userRefreshToken := none, hasCallback := false }
      { fetch1 := some "n1", firstStatus := 401, fetch2 := some "n2",
        secondStatus := 200 } rfl).2 "n1" "n2" (by decide) rfl rfl).1

/-! ### Failed refresh leaves which state (C10) -/

/-- The pre-refresh state of the C10 counterexample. -/
def staleTokenState : AHState :=
  { anonToken := none, userToken := some "old-access",
    userRefreshToken := some "old-refresh", hasCallback := false }

/-- C10 counterexample: a refresh whose response body carries an
`access_token` but no `refresh_token` returns False, yet the in-memory access
token has already been overwritten with the response's access token — the
token pair is NOT left unchanged on this failing path. -/
theorem refresh_failure_mutates_access_token :
    (refreshUserToken staleTokenState (.missingRefresh "new-access")).1
        = false ∧
    (refreshUserToken staleTokenState
        (.missingRefresh "new-access")).2.1.userToken = some "new-access" ∧
    ¬ (refreshUserToken staleTokenState
        (.missingRefresh "new-access")).2.1.userToken
      = staleTokenState.userToken := by
  refine ⟨rfl, rfl, by decide⟩

/-- A state like `staleTokenState` but with the persistence callback
registered, so the callback-raising path is reachable. -/
def callbackStaleState : AHState :=
  { anonToken := none, userToken := some "old-access",
    userRefreshToken := some "old-refresh", hasCallback := true }

/-- C10 (amended): whenever `_refresh_user_token` reports failure (returns
False), the token pair is unchanged exactly when the failure occurs before
the response body is parsed — no refresh token configured, or the refresh
HTTP call itself errors.  It is NOT generally unchanged: on a response with
an `access_token` but no `refresh_token` the access token has already been
overwritten (the refresh token is unchanged), and on a response with both
tokens whose registered persistence callback raises, BOTH the access and the
refresh token have already been overwritten with the returned pair.  A
response with both tokens whose callback invocation returns normally is never
a failing run. -/
theorem refresh_failure_state (st : AHState) (w : RefreshOutcome)
    (hfail : (refreshUserToken st w).1 = false) :
    (truthy st.userRefreshToken = false → (refreshUserToken st w).2.1 = st) ∧
    (w = .httpError → (refreshUserToken st w).2.1 = st) ∧
    (∀ a, w = .missingRefresh a → truthy st.userRefreshToken = true →
      (refreshUserToken st w).2.1.userToken = some a ∧
      (refreshUserToken st w).2.1.userRefreshToken
        = st.userRefreshToken) ∧
    (∀ a r, w = .okCallbackRaises a r → truthy st.userRefreshToken = true →
      st.hasCallback = true →
      (refreshUserToken st w).2.1.userToken = some a ∧
      (refreshUserToken st w).2.1.userRefreshToken = some r) ∧
    (∀ a r, w = .ok a r → truthy st.userRefreshToken = true → False) := by
  refine ⟨?_, ?_, ?_, ?_, ?_⟩
  · intro hrt
    rw [refreshUserToken_noToken st w hrt]
  · intro hw
    subst hw
    cases hrt : truthy st.userRefreshToken
    · rw [refreshUserToken_noToken st _ hrt]
    · rw [refreshUserToken_httpError st hrt]
  · intro a hw hrt
    subst hw
    rw [refreshUserToken_missingRefresh st a hrt]
    exact ⟨rfl, rfl⟩
  · intro a r hw hrt hcb
    subst hw
    rw [refreshUserToken_callbackRaises st a r hrt hcb]
    exact ⟨rfl, rfl⟩
  · intro a r hw hrt
    rw [hw, refreshUserToken_ok st a r hrt] at hfail
    exact absurd hfail (by simp)

/-- C10 witness: the amended theorem applied at an HTTP-failing refresh (the
state is exactly unchanged) and at a refresh whose registered callback raises
(both tokens are overwritten with the returned pair despite the failure). -/
theorem refresh_failure_state_witness :
    (refreshUserToken staleTokenState .httpError).2.1 = staleTokenState ∧
    (refreshUserToken callbackStaleState
        (.okCallbackRaises "new-access" "new-refresh")).2.1.userToken
      = some "new-access" ∧
    (refreshUserToken callbackStaleState
        (.okCallbackRaises "new-access" "new-refresh")).2.1.userRefreshToken
      = some "new-refresh" := by
  have h1 := refresh_failure_state staleTokenState .httpError (by decide)
  have h2 := refresh_failure_state callbackStaleState
    (.okCallbackRaises "new-access" "new-refresh") (by decide)
  have h3 := h2.2.2.2.1 "new-access" "new-refresh" rfl (by decide) (by decide)
  exact ⟨h1.2.1 rfl, h3.1, h3.2⟩

/-! ### Suggestion engine (`routes.py` `mapping_suggestions` lines 158-229)

The regex cleanup of lines 168-175 (stripping quantity+unit tokens and
surrounding punctuation) produces the residual `cleaned` string; the pipeline
below is modelled from that residual onward, exactly mirroring lines
177-229. -/

/-- Python `kw.lower() in display.lower()`: case-insensitive substring
containment (lower-casing character by character, as `str.lower` does). -/
def lowerContains (hay needle : String) : Bool :=
  decide ((needle.toList.map Char.toLower) <:+: (hay.toList.map Char.toLower))

/-- `sum(1 for kw in keywords if kw.lower() in m_display_lower)`. -/
def matchCount (keywords : List String) (display : String) : Nat :=
  (keywords.filter (fun kw => lowerContains display kw)).length

/-- Split a character list at every separator character, keeping empty pieces
(the behaviour of splitting at each separator; Python `str.split()` drops the
empty pieces, which the length-2 filter below also does). -/
def splitOnPred (p : Char → Bool) : List Char → List (List Char)
  | [] => [[]]
  | c :: cs =>
    if p c then [] :: splitOnPred p cs
    else
      match splitOnPred p cs with
      | [] => [[c]]
      | w :: ws => (c :: w) :: ws

/-- The keyword list of `mapping_suggestions` (routes.py line 181):
whitespace-split tokens of the residual with length at least 2. -/
def keywordsOf (cleaned : String) : List String :=
  ((splitOnPred Char.isWhitespace cleaned.toList).map
    (fun l => String.mk l)).filter (fun w => 2 ≤ w.length)

/-- One suggestion entry as returned by the route (routes.py lines 210-220). -/
structure Suggestion where
  status : MapStatus
  recipe_name : String
  ingredient_display : String
  ah_product_id : Option Int
  ah_product_name : Option String
  ah_product_image_url : Option String
  ah_product_unit_size : Option String
  ah_product_price : Option String
  score : ℚ
deriving DecidableEq, Repr

/-- Build the suggestion dict for an accepted candidate row. -/
def mkSuggestion (m : IngredientMapping) (score : ℚ) : Suggestion :=
  { status := m.status, recipe_name := m.recipe_name,
    ingredient_display := m.ingredient_display,
    ah_product_id := m.ah_product_id, ah_product_name := m.ah_product_name,
    ah_product_image_url := m.ah_product_image_url,
    ah_product_unit_size := m.ah_product_unit_size,
    ah_product_price := m.ah_product_price, score := score }

/-- The scoring/dedup loop of `mapping_suggestions` (routes.py lines 194-224):
skip zero-match candidates, skip candidates whose product (or the skipped
sentinel `None`) was already accepted, accept candidates with score ≥ 0.5 and
record their product in the seen set. -/
def suggestionLoop (keywords : List String) :
    List IngredientMapping → List (Option Int) → List Suggestion
  | [], _ => []
  | m :: rest, seen =>
    if matchCount keywords m.ingredient_display = 0 then
      suggestionLoop keywords rest seen
    else if m.status = .mapped ∧ m.ah_product_id ∈ seen then
      suggestionLoop keywords rest seen
    else if m.status = .skipped ∧ (none : Option Int) ∈ seen then
      suggestionLoop keywords rest seen
    else
      if mkRat 1 2
          ≤ mkRat (matchCount keywords m.ingredient_display) keywords.length
        then
        mkSuggestion m
            (mkRat (matchCount keywords m.ingredient_display) keywords.length)
          :: suggestionLoop keywords rest
              ((if m.status = .mapped then m.ah_product_id else none) :: seen)
      else suggestionLoop keywords rest seen

/-- Rank used in the sort key `(-score, status != "mapped")`. -/
def statusRank (s : MapStatus) : Nat :=
  if s = .mapped then 0 else 1

/-- The Python ascending comparison on the sort key
`(-score, status != "mapped")`: higher score first, mapped before skipped at
equal score. -/
def suggBefore (a b : Suggestion) : Prop :=
  b.score < a.score
    ∨ (a.score = b.score ∧ statusRank a.status ≤ statusRank b.status)

instance : DecidableRel suggBefore := fun a b => by
  unfold suggBefore
  infer_instance

theorem suggBefore_trans (a b c : Suggestion) :
    suggBefore a b → suggBefore b c → suggBefore a c := by
  unfold suggBefore
  rintro (hab | ⟨hab, hr1⟩) (hbc | ⟨hbc, hr2⟩)
  · exact Or.inl (lt_trans hbc hab)
  · exact Or.inl (hbc ▸ hab)
  · exact Or.inl (hab ▸ hbc)
  · exact Or.inr ⟨hab.trans hbc, le_trans hr1 hr2⟩

theorem suggBefore_total (a b : Suggestion) :
    suggBefore a b ∨ suggBefore b a := by
  unfold suggBefore
  rcases lt_trichotomy a.score b.score with h | h | h
  · exact Or.inr (Or.inl h)
  · rcases Nat.le_total (statusRank a.status) (statusRank b.status) with hr | hr
    · exact Or.inl (Or.inr ⟨h, hr⟩)
    · exact Or.inr (Or.inr ⟨h.symm, hr⟩)
  · exact Or.inl (Or.inl h)

instance : IsTotal Suggestion suggBefore := ⟨suggBefore_total⟩

instance : IsTrans Suggestion suggBefore := ⟨suggBefore_trans⟩

/-- `mapping_suggestions` (routes.py lines 177-229) from the cleaned residual
onward: gate on residual length and keyword presence, filter candidate rows
to mapped/skipped rows of other recipes, run the scoring/dedup loop, sort
(stably) by score descending with mapped before skipped, return the top 5. -/
def mappingSuggestions (cleaned recipe_slug : String)
    (rows : List IngredientMapping) : List Suggestion :=
  if cleaned = "" ∨ cleaned.length < 2 then []
  else if keywordsOf cleaned = [] then []
  else
    let results := rows.filter (fun m =>
      m.recipe_slug != recipe_slug
        && (m.status == MapStatus.mapped || m.status == MapStatus.skipped))
    (List.insertionSort suggBefore
      (suggestionLoop (keywordsOf cleaned) results [])).take 5

theorem suggestionLoop_facts (keywords : List String) :
    ∀ (results : List IngredientMapping) (seen : List (Option Int)),
      ∀ s ∈ suggestionLoop keywords results seen,
        s.score = (matchCount keywords s.ingredient_display : ℚ)
            / (keywords.length : ℚ) ∧
        1 ≤ matchCount keywords s.ingredient_display ∧
        (1 : ℚ)/2 ≤ s.score := by
  intro results
  induction results with
  | nil =>
    intro seen s hs
    simp [suggestionLoop] at hs
  | cons m rest ih =>
    intro seen s hs
    rw [suggestionLoop] at hs
    by_cases h0 : matchCount keywords m.ingredient_display = 0
    · rw [if_pos h0] at hs
      exact ih seen s hs
    · rw [if_neg h0] at hs
      by_cases h1 : m.status = MapStatus.mapped ∧ m.ah_product_id ∈ seen
      · rw [if_pos h1] at hs
        exact ih seen s hs
      · rw [if_neg h1] at hs
        by_cases h2 : m.status = MapStatus.skipped ∧ (none : Option Int) ∈ seen
        · rw [if_pos h2] at hs
          exact ih seen s hs
        · rw [if_neg h2] at hs
          by_cases h3 : mkRat 1 2
              ≤ mkRat (matchCount keywords m.ingredient_display)
                  keywords.length
          · rw [if_pos h3] at hs
            rcases List.mem_cons.mp hs with hh | ht
            · subst hh
              refine ⟨?_, Nat.one_le_iff_ne_zero.mpr h0, ?_⟩
              · show mkRat (matchCount keywords m.ingredient_display)
                    keywords.length
                  = (matchCount keywords m.ingredient_display : ℚ)
                    / (keywords.length : ℚ)
                rw [Rat.mkRat_eq_div]
                push_cast
                ring
              · have h12 : mkRat 1 2 = (1 : ℚ)/2 := by
                  norm_num [Rat.mkRat_eq_div]
                show (1 : ℚ)/2
                    ≤ mkRat (matchCount keywords m.ingredient_display)
                        keywords.length
                rw [← h12]
                exact h3
            · exact ih _ s ht
          · rw [if_neg h3] at hs
            exact ih seen s hs

/-- C6: from the cleaned residual onward — a residual shorter than 2
characters, or one with no whitespace token of length at least 2, yields no
suggestions; every returned suggestion's score equals the number of keywords
contained case-insensitively in its ingredient display divided by the total
keyword count, is at least 1/2, and comes from at least one matching keyword;
the returned list is sorted by score descending with mapped entries before
skipped entries at equal score; and at most 5 suggestions are returned. -/
theorem mapping_suggestions_spec (cleaned recipe_slug : String)
    (rows : List IngredientMapping) :
    (cleaned.length < 2 → mappingSuggestions cleaned recipe_slug rows = []) ∧
    (keywordsOf cleaned = [] →
      mappingSuggestions cleaned recipe_slug rows = []) ∧
    (∀ s ∈ mappingSuggestions cleaned recipe_slug rows,
      s.score = (matchCount (keywordsOf cleaned) s.ingredient_display : ℚ)
          / ((keywordsOf cleaned).length : ℚ) ∧
      1 ≤ matchCount (keywordsOf cleaned) s.ingredient_display ∧
      (1 : ℚ)/2 ≤ s.score) ∧
    (mappingSuggestions cleaned recipe_slug rows).Pairwise
      (fun a b => b.score ≤ a.score ∧
        (a.score = b.score → statusRank a.status ≤ statusRank b.status)) ∧
    (mappingSuggestions cleaned recipe_slug rows).length ≤ 5 := by
  by_cases hshort : cleaned = "" ∨ cleaned.length < 2
  · have he : mappingSuggestions cleaned recipe_slug rows = [] := by
      rw [mappingSuggestions, if_pos hshort]
    rw [he]
    exact ⟨fun _ => rfl, fun _ => rfl, fun s hs => absurd hs (by simp),
      List.Pairwise.nil, by simp⟩
  · by_cases hkw : keywordsOf cleaned = []
    · have he : mappingSuggestions cleaned recipe_slug rows = [] := by
        rw [mappingSuggestions, if_neg hshort, if_pos hkw]
      rw [he]
      exact ⟨fun _ => rfl, fun _ => rfl, fun s hs => absurd hs (by simp),
        List.Pairwise.nil, by simp⟩
    · have he : mappingSuggestions cleaned recipe_slug rows
          = (List.insertionSort suggBefore
              (suggestionLoop (keywordsOf cleaned)
                (rows.filter (fun m =>
                  m.recipe_slug != recipe_slug
                    && (m.status == MapStatus.mapped
                        || m.status == MapStatus.skipped))) [])).take 5 := by
        rw [mappingSuggestions, if_neg hshort, if_neg hkw]
      refine ⟨?_, fun h => absurd h hkw, ?_, ?_, ?_⟩
      · intro hlen
        exact absurd (Or.inr hlen) hshort
      · intro s hs
        rw [he] at hs
        have hs2 : s ∈ List.insertionSort suggBefore
            (suggestionLoop (keywordsOf cleaned)
              (rows.filter (fun m =>
                m.recipe_slug != recipe_slug
                  && (m.status == MapStatus.mapped
                      || m.status == MapStatus.skipped))) []) :=
          List.mem_of_mem_take hs
        have hs3 : s ∈ suggestionLoop (keywordsOf cleaned)
            (rows.filter (fun m =>
              m.recipe_slug != recipe_slug
                && (m.status == MapStatus.mapped
                    || m.status == MapStatus.skipped))) [] :=
          (List.perm_insertionSort suggBefore _).mem_iff.mp hs2
        exact suggestionLoop_facts (keywordsOf cleaned) _ [] s hs3
      · rw [he]
        have hsorted : (List.insertionSort suggBefore
            (suggestionLoop (keywordsOf cleaned)
              (rows.filter (fun m =>
                m.recipe_slug != recipe_slug
                  && (m.status == MapStatus.mapped
                      || m.status == MapStatus.skipped))) [])).Pairwise
            suggBefore :=
          List.sorted_insertionSort suggBefore _
        refine (List.Pairwise.sublist (List.take_sublist 5 _) hsorted).imp ?_
        intro a b hab
        rcases hab with h | ⟨he2, hr⟩
        · exact ⟨le_of_lt h, fun heq => absurd (heq ▸ h) (lt_irrefl _)⟩
        · exact ⟨le_of_eq he2.symm, fun _ => hr⟩
      · rw [he]
        exact List.length_take_le 5 _

/-- A candidate row from another recipe whose display contains both example
keywords. -/
def candidateRow : IngredientMapping :=
  { recipe_slug := "other-recipe", recipe_name := "Soep",
    ingredient_reference_id := "c1",
    ingredient_display := "1 grote ui, gesnipperd", status := .mapped,
    ah_product_id := some 9, ah_product_name := some "Uien",
    ah_product_image_url := none, ah_product_unit_size := none,
    ah_product_price := none, ah_quantity := 1 }

/-- C6 witness: for the residual "grote ui" against the single candidate row,
the returned suggestion scores 2 matched keywords out of 2 (score 1 ≥ 1/2). -/
theorem mapping_suggestions_spec_witness :
    mkSuggestion candidateRow 1
        ∈ mappingSuggestions "grote ui" "this-recipe" [candidateRow] ∧
    (mkSuggestion candidateRow 1).score
        = (matchCount (keywordsOf "grote ui")
            (mkSuggestion candidateRow 1).ingredient_display : ℚ)
          / ((keywordsOf "grote ui").length : ℚ) ∧
    1 ≤ matchCount (keywordsOf "grote ui")
          (mkSuggestion candidateRow 1).ingredient_display ∧
    (1 : ℚ)/2 ≤ (mkSuggestion candidateRow 1).score := by
  refine ⟨by decide, ?_⟩
  exact (mapping_suggestions_spec "grote ui" "this-recipe"
    [candidateRow]).2.2.1 (mkSuggestion candidateRow 1) (by decide)

/-- C5 witness: exchanging the example callback URL against an OAuth endpoint
answering with the pair ("acc", "ref") persists exactly that pair and reports
success. -/
theorem ah_code_exchange_persists_tokens_witness :
    (ahCodeExchange "appie://login-exit?code=XYZ"
      (fun _ => .ok "acc" "ref") []).1 = true ∧
    getSetting (ahCodeExchange "appie://login-exit?code=XYZ"
      (fun _ => .ok "acc" "ref") []).2 "ah_user_token" = "acc" ∧
    getSetting (ahCodeExchange "appie://login-exit?code=XYZ"
      (fun _ => .ok "acc" "ref") []).2 "ah_refresh_token" = "ref" :=
  ah_code_exchange_persists_tokens "appie://login-exit?code=XYZ"
    (fun _ => .ok "acc" "ref") [] "acc" "ref" (by decide) rfl

end Mealieah
